import Mathlib

/-!
# ChaosMath `vec2<T>` (lib/vec.hpp): swizzle views and computed properties

A shallow embedding of `cm::scalar_swizzle`, `cm::vec2_swizzle` and `cm::vec2`.

* The scalar type `T` of the templates is a type with a `Scalar` instance.
  `CInt` is the instance for the C++ type `int`.
* The anonymous union of `vec2` is one storage of two slots (`d0`, `d1`);
  every named view is a selector of slots of that storage.
* The computed properties hold a pointer `_vec`; objects therefore live at
  addresses, and a memory maps addresses to live objects.
-/

namespace cm

/-! ## Scalars -/

/-- The arithmetic of the template parameter `T`. `+ - *` and unary `-` are total,
`div` is the built-in `/` (no value where C++ gives none, as for an integer
division by zero), `sqrt t` is `(T)std::sqrt(t)` and `ofInt` the conversion of
an `int` literal to `T`. The built-in `==` of `T` is equality of values, which
is so for every integer type (an IEEE NaN lies outside this model). -/
class Scalar (T : Type) extends Add T, Sub T, Mul T, Neg T where
  ofInt : Int → T
  div : T → T → Option T
  sqrt : T → Option T

/-- Search downwards from `k` for the greatest `j ≤ k` with `j * j ≤ n`. -/
def floorSqrtAux (n : Nat) : Nat → Nat
  | 0 => 0
  | k + 1 => if (k + 1) * (k + 1) ≤ n then k + 1 else floorSqrtAux n k

/-- The integer square root `⌊√n⌋`, by structural recursion. -/
def floorSqrt (n : Nat) : Nat := floorSqrtAux n n

/-- The C++ type `int`: the integers of 32 bits in two's complement. -/
structure CInt where
  val : Int
  lo : -2147483648 ≤ val
  hi : val < 2147483648
deriving DecidableEq

namespace CInt

/-- Reduction of an integer to the 32-bit two's complement range. -/
def wrapInt (z : Int) : Int := (z + 2147483648) % 4294967296 - 2147483648

/-- Conversion to `int` with wraparound. -/
def wrap (z : Int) : CInt :=
  ⟨wrapInt z, by unfold wrapInt; omega, by unfold wrapInt; omega⟩

/-- The quotients that the built-in `/` of `int` does not define: a zero
divisor, and `INT_MIN / -1`, whose quotient is not an `int` (the division
instruction traps on both). -/
abbrev divUndefined (a b : CInt) : Prop :=
  b.val = 0 ∨ (a.val = -2147483648 ∧ b.val = -1)

/-- `int` arithmetic. Signed overflow of `+ - *` and of unary `-`, which C++
leaves undefined, is taken as two's complement wraparound. `/` truncates toward
zero and has no value where `divUndefined`. `(int)std::sqrt(n)` converts
`n` to `double` (exactly), takes the correctly rounded root and truncates it,
which for `0 ≤ n < 2^31` is the integer square root `floorSqrt n`; a negative `n` gives NaN,
whose conversion to `int` has no value. -/
instance : Scalar CInt where
  add a b := wrap (a.val + b.val)
  sub a b := wrap (a.val - b.val)
  mul a b := wrap (a.val * b.val)
  neg a := wrap (-a.val)
  ofInt z := wrap z
  div a b := if divUndefined a b then none else some (wrap (Int.tdiv a.val b.val))
  sqrt a := if a.val < 0 then none else some (wrap (floorSqrt a.val.toNat))

end CInt

/-! ## The vector object -/

/-- An address of a `vec2` object. -/
abbrev Addr := Nat

/-- The state of a `vec2<T>` object: the two slots `d[0]`, `d[1]` of its
anonymous union, and the pointers `magnitude._vec` and `normalized._vec` of its
two property members. (The member `float k` is never initialised, read or
written by any function and is left out.) -/
structure vec2 (T : Type) where
  d0 : T
  d1 : T
  magnitude_vec : Addr
  normalized_vec : Addr
deriving DecidableEq

/-- Memory in which an object is constructed: its address (`this`) and the
indeterminate content found there. -/
structure Place (T : Type) where
  addr : Addr
  raw : vec2 T

/-- The order in which the two argument expressions of a call are evaluated;
C++ leaves it unspecified. -/
inductive ArgOrder where
  | leftToRight
  | rightToLeft
deriving DecidableEq

/-- What a `const vec_type&` parameter of a member function of a view is bound
to: an object other than the view's owner (given by its state), or the owner. -/
inductive VecRef (T : Type) where
  | other (w : vec2 T)
  | owner

/-- What a `const T& right` parameter of a member function of a vector or of a
multi-component view is bound to: a scalar outside the storage of the owner
(given by its value), or the slot `d[n]` of the owner itself, as in
`v.xy *= v.d[0]` or `v.xy *= (v.x = 3)`. -/
inductive ScalarRef (T : Type) where
  | value (s : T)
  | slot (n : Fin 2)

variable {T : Type}

/-- The state of the referenced object, given the current state of the owner. -/
def VecRef.deref : VecRef T → vec2 T → vec2 T
  | .other w, _ => w
  | .owner, cur => cur

/-- Read of slot `d[n]`. -/
def vec2.get (v : vec2 T) (n : Fin 2) : T :=
  if n.val = 0 then v.d0 else v.d1

/-- Write of slot `d[n]`. -/
def vec2.set (v : vec2 T) (n : Fin 2) (t : T) : vec2 T :=
  if n.val = 0 then { v with d0 := t } else { v with d1 := t }

/-- The value of the referenced scalar, given the current state of the owner. -/
def ScalarRef.deref : ScalarRef T → vec2 T → T
  | .value s, _ => s
  | .slot n, cur => cur.get n

/-! ## `scalar_swizzle<T, I>`

A `const T& right` of a compound assignment is given by its value at the call:
`v[I] op= right` reads `right` once, before it writes `v[I]`, so this is exact
also when `right` is a slot of the owner. -/

/-- A single-component view `scalar_swizzle<T, I>`: as a member of the union of
its owner, its `v[I]` is the slot `d[I]` of the owner. -/
structure scalar_swizzle where
  I : Fin 2
deriving DecidableEq

namespace scalar_swizzle

/-- `T &operator=(const T x) { v[I] = x; return v[I]; }`: the new state of the
owner and the value of the returned lvalue. -/
def opAssign (s : scalar_swizzle) (self : vec2 T) (x : T) : vec2 T × T :=
  let self1 := self.set s.I x
  (self1, self1.get s.I)

/-- The copy assignment `scalar_swizzle& operator=(const scalar_swizzle&)`,
which the class does not declare and the compiler defines: it copies the member
array `T v[1]`, that is its one element `v[0]`, which is slot `d[0]` of the
union whatever `I` is. Overload resolution selects it, not `operator=(const T)`,
for `view = right` when `right` is a view of the same selector, here that of the
vector `right`. -/
def opAssignView (_s : scalar_swizzle) (self right : vec2 T) : vec2 T :=
  self.set 0 (right.get 0)

/-- `operator T() const { return v[I]; }` -/
def read (s : scalar_swizzle) (self : vec2 T) : T :=
  self.get s.I

/-- `T operator++(int) { return v[I]++; }` -/
def postInc [Scalar T] (s : scalar_swizzle) (self : vec2 T) : vec2 T × T :=
  (self.set s.I (self.get s.I + Scalar.ofInt 1), self.get s.I)

/-- `T operator++() { return ++v[I]; }` -/
def preInc [Scalar T] (s : scalar_swizzle) (self : vec2 T) : vec2 T × T :=
  let self1 := self.set s.I (self.get s.I + Scalar.ofInt 1)
  (self1, self1.get s.I)

/-- `T operator--(int) { return v[I]--; }` -/
def postDec [Scalar T] (s : scalar_swizzle) (self : vec2 T) : vec2 T × T :=
  (self.set s.I (self.get s.I - Scalar.ofInt 1), self.get s.I)

/-- `T operator--() { return --v[I]; }` -/
def preDec [Scalar T] (s : scalar_swizzle) (self : vec2 T) : vec2 T × T :=
  let self1 := self.set s.I (self.get s.I - Scalar.ofInt 1)
  (self1, self1.get s.I)

/-- `operator+=(const T& right) { v[I] += right; return *this; }` -/
def opAddAssign [Scalar T] (s : scalar_swizzle) (self : vec2 T) (right : T) : vec2 T :=
  self.set s.I (self.get s.I + right)

/-- `operator+=(const scalar_swizzle& right) { v[I] += right; return *this; }`:
`right` is the view of the same selector in the vector `right` (the owner
itself when the view is its own operand), read once by `operator T()`. -/
def opAddAssignView [Scalar T] (s : scalar_swizzle) (self right : vec2 T) : vec2 T :=
  self.set s.I (self.get s.I + s.read right)

/-- `operator-=(const T& right) { v[I] -= right; return *this; }` -/
def opSubAssign [Scalar T] (s : scalar_swizzle) (self : vec2 T) (right : T) : vec2 T :=
  self.set s.I (self.get s.I - right)

/-- `operator-=(const scalar_swizzle& right) { v[I] -= right; return *this; }` -/
def opSubAssignView [Scalar T] (s : scalar_swizzle) (self right : vec2 T) : vec2 T :=
  self.set s.I (self.get s.I - s.read right)

/-- `operator*=(const T& right) { v[I] *= right; return *this; }` -/
def opMulAssign [Scalar T] (s : scalar_swizzle) (self : vec2 T) (right : T) : vec2 T :=
  self.set s.I (self.get s.I * right)

/-- `operator*=(const scalar_swizzle& right) { v[I] *= right; return *this; }` -/
def opMulAssignView [Scalar T] (s : scalar_swizzle) (self right : vec2 T) : vec2 T :=
  self.set s.I (self.get s.I * s.read right)

/-- `operator/=(const T& right) { v[I] /= right; return *this; }` -/
def opDivAssign [Scalar T] (s : scalar_swizzle) (self : vec2 T) (right : T) :
    Option (vec2 T) :=
  (Scalar.div (self.get s.I) right).map (self.set s.I)

/-- `operator/=(const scalar_swizzle& right) { v[I] /= right; return *this; }` -/
def opDivAssignView [Scalar T] (s : scalar_swizzle) (self right : vec2 T) :
    Option (vec2 T) :=
  (Scalar.div (self.get s.I) (s.read right)).map (self.set s.I)

end scalar_swizzle

/-- Union member `scalar_swizzle<T, 0> x`. -/
def vec2.x : scalar_swizzle := ⟨0⟩
/-- Union member `scalar_swizzle<T, 0> i`. -/
def vec2.i : scalar_swizzle := ⟨0⟩
/-- Union member `scalar_swizzle<T, 1> y`. -/
def vec2.y : scalar_swizzle := ⟨1⟩
/-- Union member `scalar_swizzle<T, 1> j`. -/
def vec2.j : scalar_swizzle := ⟨1⟩

/-! ## Constructors of `vec2` -/

/-- `vec2(T a, T b) { x = a; y = b; magnitude.SetVec(this); normalized.SetVec(this); }` -/
def vec2.ctor (this : Place T) (a b : T) : vec2 T :=
  let s1 := (vec2.x.opAssign this.raw a).1
  let s2 := (vec2.y.opAssign s1 b).1
  let s3 := { s2 with magnitude_vec := this.addr }
  { s3 with normalized_vec := this.addr }

/-- `vec2(T all) : vec2(all, all) { }` -/
def vec2.ctorAll (this : Place T) (all : T) : vec2 T :=
  vec2.ctor this all all

/-- `vec2() : vec2(0, 0) { }` -/
def vec2.ctorDefault [Scalar T] (this : Place T) : vec2 T :=
  vec2.ctor this (Scalar.ofInt 0) (Scalar.ofInt 0)

/-- The copy (and move) constructor of `vec2`, which the class does not declare
and the compiler defines: a copy member by member, of the union and of the two
property objects with their `_vec`. -/
def vec2.copyCtor (src : vec2 T) : vec2 T :=
  { d0 := src.d0, d1 := src.d1,
    magnitude_vec := src.magnitude_vec, normalized_vec := src.normalized_vec }

/-! ## `vec2_swizzle<vec_type, T, A, B>` -/

/-- A multi-component view `vec2_swizzle<vec2, T, A, B>`: as a member of the
union of its owner, its `d` is the storage of the owner. -/
structure vec2_swizzle where
  A : Fin 2
  B : Fin 2
deriving DecidableEq

namespace vec2_swizzle

/-- `vec_type operator=(const vec_type& vec) { return vec_type(d[A] = vec.x, d[B] = vec.y); }`:
the two assignments are the argument expressions of the constructor call and
are evaluated one after the other in the order `o`, each followed by the read
of its lvalue that initialises the parameter; the result is the new state of
the owner and the vector constructed at `ret`. -/
def opAssign (s : vec2_swizzle) (o : ArgOrder) (ret : Place T) (self : vec2 T)
    (vec : VecRef T) : vec2 T × vec2 T :=
  match o with
  | .leftToRight =>
    let self1 := self.set s.A (vec2.x.read (vec.deref self))
    let a := self1.get s.A
    let self2 := self1.set s.B (vec2.y.read (vec.deref self1))
    let b := self2.get s.B
    (self2, vec2.ctor ret a b)
  | .rightToLeft =>
    let self1 := self.set s.B (vec2.y.read (vec.deref self))
    let b := self1.get s.B
    let self2 := self1.set s.A (vec2.x.read (vec.deref self1))
    let a := self2.get s.A
    (self2, vec2.ctor ret a b)

/-- `operator vec_type() { return vec_type(d[A], d[B]); }`, a member function
that is not `const`: the state of the owner after the call and the vector
constructed at `ret`. -/
def read (s : vec2_swizzle) (ret : Place T) (self : vec2 T) : vec2 T × vec2 T :=
  (self, vec2.ctor ret (self.get s.A) (self.get s.B))

/-- `operator*=(const T& right) { d[0] *= right; d[1] *= right; return *this; }`:
`right` is read again for the second statement, after `d[0]` is written. -/
def opMulAssign [Scalar T] (_s : vec2_swizzle) (self : vec2 T) (right : ScalarRef T) :
    vec2 T :=
  let self1 := self.set 0 (self.get 0 * right.deref self)
  self1.set 1 (self1.get 1 * right.deref self1)

/-- `operator/=(const T& right) { d[0] /= right; d[1] /= right; return *this; }`:
`right` is read again for the second statement, after `d[0]` is written. -/
def opDivAssign [Scalar T] (_s : vec2_swizzle) (self : vec2 T) (right : ScalarRef T) :
    Option (vec2 T) :=
  (Scalar.div (self.get 0) (right.deref self)).bind fun q0 =>
    let self1 := self.set 0 q0
    (Scalar.div (self1.get 1) (right.deref self1)).map fun q1 => self1.set 1 q1

/-- `operator==(const vec2_swizzle<vec_type, T, A, B>& lhs, const vec2_swizzle<vec_type, T, C, D>& rhs)`
`{ return lhs.d[0] == rhs.d[0] && lhs.d[1] == rhs.d[1]; }`, for the view `l` of
the vector `lhs` and the view `r` of the vector `rhs`. -/
def opEq [DecidableEq T] (_l _r : vec2_swizzle) (lhs rhs : vec2 T) : Bool :=
  decide (lhs.get 0 = rhs.get 0) && decide (lhs.get 1 = rhs.get 1)

end vec2_swizzle

/-- Union member `vec2_swizzle<vec2, T, 0, 0> xx`. -/
def vec2.xx : vec2_swizzle := ⟨0, 0⟩
/-- Union member `vec2_swizzle<vec2, T, 0, 1> xy`. -/
def vec2.xy : vec2_swizzle := ⟨0, 1⟩
/-- Union member `vec2_swizzle<vec2, T, 1, 0> yx`. -/
def vec2.yx : vec2_swizzle := ⟨1, 0⟩
/-- Union member `vec2_swizzle<vec2, T, 1, 1> yy`. -/
def vec2.yy : vec2_swizzle := ⟨1, 1⟩

/-! ## Operators of `vec2`

A `const vec2& right` is given by the state of the referenced object at the
call. Each of the operators below reads `right.x` only before it writes `y`
and never reads it after a write of `x` (nor `right.y` after a write of `y`),
so this is exact also when `right` is the object itself. A parameter `vec2 left`
taken by value is the state of the parameter object, a copy of the argument. -/

namespace vec2

/-- `vec2& operator+=(const vec2& right) { x += right.x; y += right.y; return *this; }` -/
def opAddAssign [Scalar T] (self right : vec2 T) : vec2 T :=
  let self1 := vec2.x.opAddAssignView self right
  vec2.y.opAddAssignView self1 right

/-- `friend vec2 operator+(vec2 left, const vec2& right) { left += right; return left; }` -/
def opAdd [Scalar T] (left right : vec2 T) : vec2 T :=
  let left1 := opAddAssign left right
  copyCtor left1

/-- `vec2& operator-=(const vec2& right) { x += right.x; y += right.y; return *this; }` -/
def opSubAssign [Scalar T] (self right : vec2 T) : vec2 T :=
  let self1 := vec2.x.opAddAssignView self right
  vec2.y.opAddAssignView self1 right

/-- `friend vec2 operator-(vec2 left, const vec2& right) { left += right; return left; }` -/
def opSub [Scalar T] (left right : vec2 T) : vec2 T :=
  let left1 := opAddAssign left right
  copyCtor left1

/-- `vec2& operator*=(const vec2& right) { x *= right.x; y *= right.y; return *this; }` -/
def opMulAssign [Scalar T] (self right : vec2 T) : vec2 T :=
  let self1 := vec2.x.opMulAssignView self right
  vec2.y.opMulAssignView self1 right

/-- `vec2& operator*=(const T& right) { x *= right; y *= right; return *this; }`:
`right` is read again for the second statement, after `x` is written. -/
def opMulAssignScalar [Scalar T] (self : vec2 T) (right : ScalarRef T) : vec2 T :=
  let self1 := vec2.x.opMulAssign self (right.deref self)
  vec2.y.opMulAssign self1 (right.deref self1)

/-- `friend vec2 operator*(vec2 left, const vec2& right) { left *= right; return left; }` -/
def opMul [Scalar T] (left right : vec2 T) : vec2 T :=
  let left1 := opMulAssign left right
  copyCtor left1

/-- `friend vec2 operator*(vec2 left, const T& right) { left *= right; return left; }`:
`right` is no slot of the parameter `left`, a new object. -/
def opMulScalar [Scalar T] (left : vec2 T) (right : T) : vec2 T :=
  let left1 := opMulAssignScalar left (.value right)
  copyCtor left1

/-- `vec2& operator/=(const vec2& right) { x /= right.x; y /= right.y; return *this; }` -/
def opDivAssign [Scalar T] (self right : vec2 T) : Option (vec2 T) :=
  (vec2.x.opDivAssignView self right).bind fun self1 =>
    vec2.y.opDivAssignView self1 right

/-- `friend vec2 operator/(vec2 left, const vec2& right) { left /= right; return left; }` -/
def opDiv [Scalar T] (left right : vec2 T) : Option (vec2 T) :=
  (opDivAssign left right).map copyCtor

/-- `friend vec2 operator/(vec2 left, const T& right) { left /= right; return left; }`:
`vec2` has no `operator/=(const T&)`, so `left /= right` converts `right` by the
constructor `vec2(T all)` to a temporary, constructed at `tmp`, and calls
`operator/=(const vec2&)`. -/
def opDivScalar [Scalar T] (tmp : Place T) (left : vec2 T) (right : T) : Option (vec2 T) :=
  (opDivAssign left (ctorAll tmp right)).map copyCtor

/-- `vec2 operator-() { return vec2<T>(-x, -y); }`, the result constructed at `ret`. -/
def opNeg [Scalar T] (ret : Place T) (self : vec2 T) : vec2 T :=
  ctor ret (-(vec2.x.read self)) (-(vec2.y.read self))

/-- `operator==(const vec2<T>& lhs, const vec2<T>& rhs) { return lhs.x == rhs.x && lhs.y == rhs.y; }` -/
def opEq [DecidableEq T] (lhs rhs : vec2 T) : Bool :=
  decide (vec2.x.read lhs = vec2.x.read rhs) && decide (vec2.y.read lhs = vec2.y.read rhs)

/-- `operator!=(const vec2<T>& lhs, const vec2<T>& rhs) { return !operator==(lhs,rhs); }` -/
def opNe [DecidableEq T] (lhs rhs : vec2 T) : Bool :=
  !opEq lhs rhs

end vec2

/-! ## Memory and the computed properties -/

/-- The live `vec2` objects, by address. -/
abbrev Mem (T : Type) := Addr → Option (vec2 T)

namespace Mem

/-- No live object. -/
def empty : Mem T := fun _ => none

/-- The memory with the object at `p` in state `o`. -/
def store (m : Mem T) (p : Addr) (o : vec2 T) : Mem T :=
  fun q => if q = p then some o else m q

/-- End of the lifetime of the object at `p`. -/
def free (m : Mem T) (p : Addr) : Mem T :=
  fun q => if q = p then none else m q

/-- `vec2<T> v(a, b);` for the object `v` at `this`. -/
def construct (m : Mem T) (this : Place T) (a b : T) : Mem T :=
  m.store this.addr (vec2.ctor this a b)

/-- `vec2<T> w = v;` for the new object `w` at `dst` and the object `v` at `src`. -/
def copyConstruct (m : Mem T) (dst src : Addr) : Option (Mem T) :=
  (m src).map fun o => m.store dst (vec2.copyCtor o)

/-- A call of the member function `f` on the object at `p`. -/
def update (m : Mem T) (p : Addr) (f : vec2 T → vec2 T) : Option (Mem T) :=
  (m p).map fun o => m.store p (f o)

/-- `vec2<T> c = a op b;` for a friend operator `op` that takes its left operand
by value: the parameter `left` is copy-constructed from the object at `a`,
`right` is bound to the object at `b`, and the returned object initialises the
new object at `c`. -/
def initBinary (m : Mem T) (op : vec2 T → vec2 T → vec2 T) (c a b : Addr) :
    Option (Mem T) :=
  (m a).bind fun oa => (m b).map fun ob => m.store c (op (vec2.copyCtor oa) ob)

/-- `vec2<T> c = e;` for an operator expression `e` on the object at `a`: `op`
maps the state of the operand to the returned object, when there is one, which
initialises the new object at `c`. For a friend operator the operand is taken
by value and `op` is applied to the parameter `left`, copy-constructed from the
object at `a`; what `e` reads besides (a `const vec2& right`, a scalar) is part
of `op`. -/
def initByValue (m : Mem T) (op : vec2 T → Option (vec2 T)) (c a : Addr) :
    Option (Mem T) :=
  (m a).bind fun oa => (op (vec2.copyCtor oa)).map fun r => m.store c r

end Mem

/-- Read of `magnitude` of the object at `self`:
`virtual operator T () const { T x = _vec->x; T y = _vec->y; return (T)std::sqrt(x*x + y*y); }`.
There is no value when `_vec` points to no live object. -/
def vec2.magnitude [Scalar T] (m : Mem T) (self : Addr) : Option T :=
  (m self).bind fun o =>
    (m o.magnitude_vec).bind fun vec =>
      let x := vec2.x.read vec
      let y := vec2.y.read vec
      Scalar.sqrt (x * x + y * y)

/-- Read of `normalized` of the object at `self`:
`virtual operator vec2<T> () const { T x = _vec->x; T y = _vec->y; T mag = std::sqrt(x*x + y*y); return vec2<T>(x, y) / mag; }`.
The temporary `vec2<T>(x, y)` initialises the parameter `left` of `operator/`
and is constructed at `left`. -/
def vec2.normalized [Scalar T] (m : Mem T) (self : Addr) (left tmp : Place T) :
    Option (vec2 T) :=
  (m self).bind fun o =>
    (m o.normalized_vec).bind fun vec =>
      let x := vec2.x.read vec
      let y := vec2.y.read vec
      (Scalar.sqrt (x * x + y * y)).bind fun mag =>
        vec2.opDivScalar tmp (vec2.ctor left x y) mag

/-- `vec2<T> n = v.normalized;` for the new object `n` at `dst` and the object
`v` at `src`. The parameter `left` of `operator/` and the temporary at `tmp` are
destroyed when the initialisation is complete: no object is live at their
addresses afterwards. -/
def Mem.initNormalized [Scalar T] (m : Mem T) (dst src : Addr) (left tmp : Place T) :
    Option (Mem T) :=
  (vec2.normalized m src left tmp).map fun n => m.store dst n

/-- The two components of a vector, read through `x` and `y`. -/
def vec2.components (v : vec2 T) : T × T :=
  (vec2.x.read v, vec2.y.read v)

/-- Vectors of `int` with the components `a`, `b`, constructed at the address `p`
over memory that held something else. -/
def intVec (p : Addr) (a b : Int) : vec2 CInt :=
  vec2.ctor ⟨p, ⟨CInt.wrap 77, CInt.wrap 88, 99, 99⟩⟩ (CInt.wrap a) (CInt.wrap b)

/-- `vec2<int> v(3, 4); vec2<int> w = v; w.x = 0;` with `v` at address 0 and `w`
at address 1. -/
def copyScenario : Option (Mem CInt) :=
  let m0 := Mem.empty.construct ⟨0, intVec 9 7 7⟩ (CInt.wrap 3) (CInt.wrap 4)
  (m0.copyConstruct 1 0).bind fun m1 =>
    m1.update 1 fun w => (vec2.x.opAssign w (CInt.wrap 0)).1

/-- `vec2<int> a(3, 4), b(5, 8); vec2<int> c = a + b;` with `a`, `b`, `c` at the
addresses 0, 1, 2. -/
def sumScenario : Option (Mem CInt) :=
  let m0 := Mem.empty.construct ⟨0, intVec 9 7 7⟩ (CInt.wrap 3) (CInt.wrap 4)
  let m1 := m0.construct ⟨1, intVec 9 7 7⟩ (CInt.wrap 5) (CInt.wrap 8)
  m1.initBinary vec2.opAdd 2 0 1

/-- `vec2<int> a(0, 2), b(4, 0); vec2<int> c = a + b;` with `a`, `b`, `c` at the
addresses 0, 1, 2. -/
def normalizedScenario : Option (Mem CInt) :=
  let m0 := Mem.empty.construct ⟨0, intVec 9 7 7⟩ (CInt.wrap 0) (CInt.wrap 2)
  let m1 := m0.construct ⟨1, intVec 9 7 7⟩ (CInt.wrap 4) (CInt.wrap 0)
  m1.initBinary vec2.opAdd 2 0 1

/-- `vec2<int> v(3, 0); vec2<int> n = v.normalized;` with `v` at address 0 and `n`
at address 1; the parameter `left` of `operator/` is at address 2 and the
temporary of the conversion `vec2(mag)` at address 3. -/
def normalizedCopyScenario : Option (Mem CInt) :=
  (Mem.empty.construct ⟨0, intVec 9 7 7⟩ (CInt.wrap 3) (CInt.wrap 0)).initNormalized 1 0
    ⟨2, intVec 9 7 7⟩ ⟨3, intVec 9 7 7⟩

/-! ## Lemmas on the integer square root and on slots -/

theorem floorSqrtAux_spec (n k : Nat) :
    floorSqrtAux n k * floorSqrtAux n k ≤ n ∧ floorSqrtAux n k ≤ k ∧
      ∀ j, j ≤ k → j * j ≤ n → j ≤ floorSqrtAux n k := by
  induction k with
  | zero => simp [floorSqrtAux]
  | succ k ih =>
    unfold floorSqrtAux
    split
    · rename_i h
      exact ⟨h, le_refl _, fun j hj _ => hj⟩
    · rename_i h
      refine ⟨ih.1, Nat.le_succ_of_le ih.2.1, fun j hj hjn => ?_⟩
      rcases Nat.lt_or_ge j (k + 1) with hlt | hge
      · exact ih.2.2 j (Nat.lt_succ_iff.mp hlt) hjn
      · have : j = k + 1 := le_antisymm hj hge
        subst this
        exact absurd hjn h

theorem floorSqrt_eq_sqrt (n : Nat) : floorSqrt n = Nat.sqrt n := by
  have h := floorSqrtAux_spec n n
  rw [Nat.eq_sqrt]
  refine ⟨h.1, ?_⟩
  by_contra hc
  have hle : (floorSqrt n + 1) * (floorSqrt n + 1) ≤ n := Nat.le_of_not_lt hc
  have hk : floorSqrt n + 1 ≤ n := le_trans (Nat.le_mul_self _) hle
  have := h.2.2 (floorSqrt n + 1) hk hle
  unfold floorSqrt at this
  omega

@[simp] theorem vec2.get_set_same (v : vec2 T) (n : Fin 2) (t : T) :
    (v.set n t).get n = t := by
  unfold vec2.get vec2.set
  split <;> simp_all

theorem vec2.get_set_ne (v : vec2 T) (n k : Fin 2) (t : T) (h : n ≠ k) :
    (v.set n t).get k = v.get k := by
  unfold vec2.get vec2.set
  have : n.val ≠ k.val := fun e => h (Fin.ext e)
  split <;> split <;> first | rfl | omega

@[simp] theorem vec2.set_magnitude_vec (v : vec2 T) (n : Fin 2) (t : T) :
    (v.set n t).magnitude_vec = v.magnitude_vec := by
  unfold vec2.set; split <;> rfl

@[simp] theorem vec2.set_normalized_vec (v : vec2 T) (n : Fin 2) (t : T) :
    (v.set n t).normalized_vec = v.normalized_vec := by
  unfold vec2.set; split <;> rfl

@[simp] theorem vec2.copyCtor_eq (v : vec2 T) : vec2.copyCtor v = v := rfl

/-! ## Subtraction -/

/-- Both subtraction operators are, as written, the addition operators. -/
theorem vec2.opSub_eq_opAdd [Scalar T] (a b : vec2 T) :
    vec2.opSub a b = vec2.opAdd a b ∧ vec2.opSubAssign a b = vec2.opAddAssign a b :=
  ⟨rfl, rfl⟩

/-- C1, evaluated on the code: for `a = (5, 3)` and `b = (1, 1)` of `vec2<int>`,
`a - b` is `(6, 4)` and `a -= b` leaves `a` at `(6, 4)`, while the component-wise
differences are `5 - 1 = 4` and `3 - 1 = 2`. -/
theorem C1_subtraction_adds :
    (vec2.x.read (vec2.opSub (vec2.copyCtor (intVec 0 5 3)) (intVec 1 1 1)) = CInt.wrap 6 ∧
      vec2.y.read (vec2.opSub (vec2.copyCtor (intVec 0 5 3)) (intVec 1 1 1)) = CInt.wrap 4) ∧
    (vec2.x.read (vec2.opSubAssign (intVec 0 5 3) (intVec 1 1 1)) = CInt.wrap 6 ∧
      vec2.y.read (vec2.opSubAssign (intVec 0 5 3) (intVec 1 1 1)) = CInt.wrap 4) ∧
    (vec2.x.read (intVec 0 5 3) - vec2.x.read (intVec 1 1 1) = CInt.wrap 4 ∧
      vec2.y.read (intVec 0 5 3) - vec2.y.read (intVec 1 1 1) = CInt.wrap 2) ∧
    CInt.wrap 6 ≠ CInt.wrap 4 ∧ CInt.wrap 4 ≠ CInt.wrap 2 := by
  decide

/-! ## Multi-component views -/

/-- C2: assignment through a permuting view. For either order of evaluation of
the two stores: after `v.yx = w`, `v.x == w.y` and `v.y == w.x`; after `v.xy = w`,
`v.x == w.x` and `v.y == w.y`. This holds for `w` an object other than `v`, and,
read on the state after the assignment, also for `w` the vector `v` itself. For
`v = (1, 2)`, `v.yx = (10, 20)` leaves `v.x == 20` and `v.y == 10`. -/
theorem C2_assign_through_permuting_view :
    (∀ {T : Type} (o : ArgOrder) (ret : Place T) (v w : vec2 T),
      (vec2.x.read (vec2.yx.opAssign o ret v (.other w)).1 = vec2.y.read w ∧
        vec2.y.read (vec2.yx.opAssign o ret v (.other w)).1 = vec2.x.read w) ∧
      (vec2.x.read (vec2.xy.opAssign o ret v (.other w)).1 = vec2.x.read w ∧
        vec2.y.read (vec2.xy.opAssign o ret v (.other w)).1 = vec2.y.read w)) ∧
    (∀ {T : Type} (o : ArgOrder) (ret : Place T) (v : vec2 T),
      (vec2.x.read (vec2.yx.opAssign o ret v .owner).1
          = vec2.y.read (vec2.yx.opAssign o ret v .owner).1 ∧
        vec2.y.read (vec2.yx.opAssign o ret v .owner).1
          = vec2.x.read (vec2.yx.opAssign o ret v .owner).1) ∧
      (vec2.xy.opAssign o ret v .owner).1 = v) ∧
    (∀ o : ArgOrder,
      vec2.x.read (vec2.yx.opAssign o ⟨2, intVec 9 0 0⟩ (intVec 0 1 2)
          (.other (intVec 1 10 20))).1 = CInt.wrap 20 ∧
      vec2.y.read (vec2.yx.opAssign o ⟨2, intVec 9 0 0⟩ (intVec 0 1 2)
          (.other (intVec 1 10 20))).1 = CInt.wrap 10) := by
  refine ⟨?_, ?_, ?_⟩
  · intro T o ret v w
    cases o <;> exact ⟨⟨rfl, rfl⟩, rfl, rfl⟩
  · intro T o ret v
    cases o <;> exact ⟨⟨rfl, rfl⟩, rfl⟩
  · intro o
    cases o <;> decide

/-- C4: equality of two multi-component views is equality of the storage. For
any views `l` of `v` and `r` of `w`, `l == r` is true exactly when slot 0 of `v`
equals slot 0 of `w` and slot 1 of `v` equals slot 1 of `w`. So `v.xy == v.yx` is
true for every `v`, as for `v = (1, 2)`, whose `x` and `y` differ and whose
`xy` and `yx` convert to vectors that are not equal. -/
theorem C4_view_equality_is_storage_equality :
    (∀ {T : Type} [DecidableEq T] (l r : vec2_swizzle) (v w : vec2 T),
      vec2_swizzle.opEq l r v w = true ↔ (v.get 0 = w.get 0 ∧ v.get 1 = w.get 1)) ∧
    (∀ {T : Type} [DecidableEq T] (v : vec2 T),
      vec2_swizzle.opEq vec2.xy vec2.yx v v = true) ∧
    (vec2_swizzle.opEq vec2.xy vec2.yx (intVec 0 1 2) (intVec 0 1 2) = true ∧
      vec2.x.read (intVec 0 1 2) ≠ vec2.y.read (intVec 0 1 2) ∧
      vec2.opEq (vec2.xy.read ⟨1, intVec 9 0 0⟩ (intVec 0 1 2)).2
        (vec2.yx.read ⟨2, intVec 9 0 0⟩ (intVec 0 1 2)).2 = false) := by
  refine ⟨?_, ?_, ?_⟩
  · intro T _ l r v w
    simp [vec2_swizzle.opEq]
  · intro T _ v
    simp [vec2_swizzle.opEq]
  · decide

/-- C5: reading a multi-component view leaves `v` unchanged and yields a vector
constructed from the selected slots: `v.xy` converts to `(x, y)`, component-wise
equal to `v`, `v.yx` to `(y, x)`, `v.xx` to `(x, x)` and `v.yy` to `(y, y)`. -/
theorem C5_view_read {T : Type} (ret : Place T) (v : vec2 T) :
    ((vec2.xy.read ret v).1 = v ∧
      vec2.x.read (vec2.xy.read ret v).2 = vec2.x.read v ∧
      vec2.y.read (vec2.xy.read ret v).2 = vec2.y.read v) ∧
    ((vec2.yx.read ret v).1 = v ∧
      vec2.x.read (vec2.yx.read ret v).2 = vec2.y.read v ∧
      vec2.y.read (vec2.yx.read ret v).2 = vec2.x.read v) ∧
    ((vec2.xx.read ret v).1 = v ∧
      vec2.x.read (vec2.xx.read ret v).2 = vec2.x.read v ∧
      vec2.y.read (vec2.xx.read ret v).2 = vec2.x.read v) ∧
    ((vec2.yy.read ret v).1 = v ∧
      vec2.x.read (vec2.yy.read ret v).2 = vec2.y.read v ∧
      vec2.y.read (vec2.yy.read ret v).2 = vec2.y.read v) :=
  ⟨⟨rfl, rfl, rfl⟩, ⟨rfl, rfl, rfl⟩, ⟨rfl, rfl, rfl⟩, ⟨rfl, rfl, rfl⟩⟩

/-! ## Constructors, aliases, equality -/

/-- C6: the constructors. `vec2(a, b)` has `x == a` and `y == b`, `vec2()` is
`(0, 0)` (the `int` literal `0` converted to `T`, for `int` the number 0), and
`vec2(s)` is `(s, s)`; whatever the memory held before. -/
theorem C6_constructors {T : Type} [Scalar T] (this : Place T) (a b s : T) :
    (vec2.x.read (vec2.ctor this a b) = a ∧ vec2.y.read (vec2.ctor this a b) = b) ∧
    (vec2.x.read (vec2.ctorDefault this) = Scalar.ofInt 0 ∧
      vec2.y.read (vec2.ctorDefault this) = Scalar.ofInt 0 ∧
      (Scalar.ofInt 0 : CInt).val = 0) ∧
    (vec2.x.read (vec2.ctorAll this s) = s ∧ vec2.y.read (vec2.ctorAll this s) = s) :=
  ⟨⟨rfl, rfl⟩, ⟨rfl, rfl, by decide⟩, ⟨rfl, rfl⟩⟩

/-- C7: `x` and `i` are one view of slot 0, `y` and `j` one view of slot 1. They
read the same value in every state, and a value written through one name of a
slot is read back through the other name. -/
theorem C7_alias_equivalence {T : Type} (v : vec2 T) (t : T) :
    (vec2.x.read v = vec2.i.read v ∧ vec2.y.read v = vec2.j.read v) ∧
    (vec2.x.read (vec2.i.opAssign v t).1 = t ∧ vec2.y.read (vec2.j.opAssign v t).1 = t) ∧
    (vec2.i.read (vec2.x.opAssign v t).1 = t ∧ vec2.j.read (vec2.y.opAssign v t).1 = t) :=
  ⟨⟨rfl, rfl⟩, ⟨rfl, rfl⟩, ⟨rfl, rfl⟩⟩

/-- C8: `a == b` is true exactly when `a.x == b.x` and `a.y == b.y`, and `a != b`
is its negation; `vec(1,2) == vec(1,2)` and `vec(1,2) != vec(2,1)` are true. -/
theorem C8_vector_equality :
    (∀ {T : Type} [DecidableEq T] (a b : vec2 T),
      (vec2.opEq a b = true ↔
        (vec2.x.read a = vec2.x.read b ∧ vec2.y.read a = vec2.y.read b)) ∧
      vec2.opNe a b = !vec2.opEq a b) ∧
    vec2.opEq (intVec 0 1 2) (intVec 1 1 2) = true ∧
    vec2.opNe (intVec 0 1 2) (intVec 1 2 1) = true := by
  refine ⟨?_, by decide, by decide⟩
  intro T _ a b
  refine ⟨?_, rfl⟩
  simp [vec2.opEq]

/-! ## Computed properties -/

/-- Every constructor binds both properties of the object to the object. -/
theorem vec2.ctor_bound (this : Place T) (a b : T) :
    (vec2.ctor this a b).magnitude_vec = this.addr ∧
      (vec2.ctor this a b).normalized_vec = this.addr :=
  ⟨rfl, rfl⟩

/-- A copy, and the result of each operator that returns its parameter `left`,
carry the `_vec` pointers of their source. -/
theorem vec2.byValue_keeps_vec [Scalar T] (a b : vec2 T) (s : T) :
    (vec2.copyCtor a).magnitude_vec = a.magnitude_vec ∧
    (vec2.opAdd a b).magnitude_vec = a.magnitude_vec ∧
    (vec2.opSub a b).magnitude_vec = a.magnitude_vec ∧
    (vec2.opMul a b).magnitude_vec = a.magnitude_vec ∧
    (vec2.opMulScalar a s).magnitude_vec = a.magnitude_vec :=
  ⟨rfl, rfl, rfl, rfl, rfl⟩

/-- For an object whose `magnitude._vec` points to the object itself, a read of
`magnitude` is `(T)std::sqrt(x*x + y*y)` of its current components. -/
theorem vec2.magnitude_of_bound [Scalar T] (m : Mem T) (p : Addr) (o : vec2 T)
    (h : m p = some o) (hb : o.magnitude_vec = p) :
    vec2.magnitude m p
      = Scalar.sqrt (vec2.x.read o * vec2.x.read o + vec2.y.read o * vec2.y.read o) := by
  simp [vec2.magnitude, h, hb]

theorem CInt.wrapInt_of_range (z : Int) (h0 : -2147483648 ≤ z) (h1 : z < 2147483648) :
    CInt.wrapInt z = z := by
  unfold CInt.wrapInt; omega

/-- For `int` components whose `x*x + y*y` does not overflow, `(int)std::sqrt(x*x + y*y)`
is the integer square root of the sum of the squares. -/
theorem CInt.sqrt_sum_squares (x y : CInt)
    (h : x.val * x.val + y.val * y.val < 2147483648) :
    ∃ r : CInt, Scalar.sqrt (x * x + y * y) = some r ∧
      r.val = Nat.sqrt (x.val * x.val + y.val * y.val).toNat := by
  have hx : 0 ≤ x.val * x.val := mul_self_nonneg _
  have hy : 0 ≤ y.val * y.val := mul_self_nonneg _
  have ex : (x * x : CInt).val = x.val * x.val :=
    CInt.wrapInt_of_range _ (by omega) (by omega)
  have ey : (y * y : CInt).val = y.val * y.val :=
    CInt.wrapInt_of_range _ (by omega) (by omega)
  have es : (x * x + y * y : CInt).val = x.val * x.val + y.val * y.val := by
    show CInt.wrapInt ((x * x : CInt).val + (y * y : CInt).val) = _
    rw [ex, ey]
    exact CInt.wrapInt_of_range _ (by omega) (by omega)
  refine ⟨CInt.wrap (floorSqrt (x * x + y * y : CInt).val.toNat), ?_, ?_⟩
  · show (if (x * x + y * y : CInt).val < 0 then none else _) = _
    rw [if_neg (by rw [es]; omega)]
  · rw [es]
    show CInt.wrapInt _ = _
    rw [floorSqrt_eq_sqrt]
    have hle : Nat.sqrt (x.val * x.val + y.val * y.val).toNat
        ≤ (x.val * x.val + y.val * y.val).toNat := Nat.sqrt_le_self _
    exact CInt.wrapInt_of_range _ (by omega) (by omega)

/-- For `vec2<int> v(3, 4)`, a read of `v.magnitude` gives 5, and after `v.x = 0`
the next read gives 4. -/
theorem vec2.magnitude_constructed_example :
    vec2.magnitude (Mem.empty.construct ⟨0, intVec 9 7 7⟩ (CInt.wrap 3) (CInt.wrap 4)) 0
      = some (CInt.wrap 5) ∧
    (((Mem.empty.construct ⟨0, intVec 9 7 7⟩ (CInt.wrap 3) (CInt.wrap 4)).update 0
        fun v => (vec2.x.opAssign v (CInt.wrap 0)).1).bind fun m => vec2.magnitude m 0)
      = some (CInt.wrap 4) := by
  decide

/-- C9, evaluated on the code: after `vec2<int> v(3, 4); vec2<int> w = v; w.x = 0;`
the copy `w = (0, 4)` has both `_vec` pointers at `v` (address 0), not at itself
(address 1). `w.magnitude` is 5, the magnitude of `v`, while `(0, 4)` has
magnitude 4; `w.normalized` is `(3/5, 4/5) = (0, 0)` from `v`, while `(0, 4)`
gives `(0/4, 4/4) = (0, 1)`. -/
theorem C9_copy_stays_bound_to_source :
    (copyScenario.bind fun m => m 0) = some (intVec 0 3 4) ∧
    (copyScenario.bind fun m => m 1)
      = some ⟨CInt.wrap 0, CInt.wrap 4, 0, 0⟩ ∧
    (copyScenario.bind fun m => vec2.magnitude m 1) = some (CInt.wrap 5) ∧
    Scalar.sqrt (CInt.wrap 0 * CInt.wrap 0 + CInt.wrap 4 * CInt.wrap 4)
      = some (CInt.wrap 4) ∧
    (copyScenario.bind fun m =>
        (vec2.normalized m 1 ⟨2, intVec 9 7 7⟩ ⟨3, intVec 9 7 7⟩).map fun n =>
          (vec2.x.read n, vec2.y.read n))
      = some (CInt.wrap 0, CInt.wrap 0) ∧
    (vec2.opDivScalar ⟨3, intVec 9 7 7⟩ (intVec 2 0 4) (CInt.wrap 4)).map
        (fun n => (vec2.x.read n, vec2.y.read n))
      = some (CInt.wrap 0, CInt.wrap 1) := by
  decide

/-- C10, evaluated on the code: after `vec2<int> a(3, 4), b(5, 8); vec2<int> c = a + b;`
the vector `c` is `(8, 12)`, whose `sqrt(8*8 + 12*12)` truncates to 14, and
`c.magnitude` is 5; after `c.x = 0` the vector is `(0, 12)`, of magnitude 12,
and `c.magnitude` is still 5. -/
theorem C10_magnitude_of_sum_reads_left_operand :
    (sumScenario.bind fun m => (m 2).map fun c => (vec2.x.read c, vec2.y.read c))
      = some (CInt.wrap 8, CInt.wrap 12) ∧
    (sumScenario.bind fun m => vec2.magnitude m 2) = some (CInt.wrap 5) ∧
    Scalar.sqrt (CInt.wrap 8 * CInt.wrap 8 + CInt.wrap 12 * CInt.wrap 12)
      = some (CInt.wrap 14) ∧
    (sumScenario.bind fun m =>
        (m.update 2 fun c => (vec2.x.opAssign c (CInt.wrap 0)).1).bind fun m1 =>
          (m1 2).map fun c => (vec2.x.read c, vec2.y.read c))
      = some (CInt.wrap 0, CInt.wrap 12) ∧
    (sumScenario.bind fun m =>
        (m.update 2 fun c => (vec2.x.opAssign c (CInt.wrap 0)).1).bind fun m1 =>
          vec2.magnitude m1 2)
      = some (CInt.wrap 5) ∧
    Scalar.sqrt (CInt.wrap 0 * CInt.wrap 0 + CInt.wrap 12 * CInt.wrap 12)
      = some (CInt.wrap 12) := by
  decide

/-! ## The property `normalized` -/

/-- `left /= right` on vectors, in terms of the division of `T`. -/
theorem vec2.opDivAssign_eq [Scalar T] (self right : vec2 T) :
    vec2.opDivAssign self right
      = (Scalar.div (vec2.x.read self) (vec2.x.read right)).bind fun qx =>
          (Scalar.div (vec2.y.read self) (vec2.y.read right)).map fun qy =>
            { self with d0 := qx, d1 := qy } := by
  show ((Scalar.div self.d0 right.d0).map _).bind _ = (Scalar.div self.d0 right.d0).bind _
  cases Scalar.div self.d0 right.d0 with
  | none => rfl
  | some q0 =>
    show (Scalar.div self.d1 right.d1).map _ = (Scalar.div self.d1 right.d1).map _
    cases Scalar.div self.d1 right.d1 <;> rfl

/-- `left / right` for a scalar `right`, in terms of the division of `T`. -/
theorem vec2.opDivScalar_eq [Scalar T] (tmp : Place T) (left : vec2 T) (right : T) :
    vec2.opDivScalar tmp left right
      = (Scalar.div (vec2.x.read left) right).bind fun qx =>
          (Scalar.div (vec2.y.read left) right).map fun qy =>
            { left with d0 := qx, d1 := qy } := by
  unfold vec2.opDivScalar
  rw [vec2.opDivAssign_eq]
  show ((Scalar.div left.d0 right).bind _).map _ = (Scalar.div left.d0 right).bind _
  cases Scalar.div left.d0 right with
  | none => rfl
  | some q0 =>
    show ((Scalar.div left.d1 right).map _).map _ = (Scalar.div left.d1 right).map _
    cases Scalar.div left.d1 right <;> rfl

/-- The quotient of a vector by a scalar has the component-wise quotients. -/
theorem vec2.opDivScalar_components [Scalar T] (tmp : Place T) (v : vec2 T) (s : T) :
    (vec2.opDivScalar tmp v s).map vec2.components
      = (Scalar.div (vec2.x.read v) s).bind fun qx =>
          (Scalar.div (vec2.y.read v) s).map fun qy => (qx, qy) := by
  rw [vec2.opDivScalar_eq]
  cases Scalar.div (vec2.x.read v) s with
  | none => rfl
  | some q0 =>
    cases Scalar.div (vec2.y.read v) s <;> rfl

/-- A read of `normalized` through a `_vec` that points to the live object `vec`. -/
theorem vec2.normalized_eq [Scalar T] (m : Mem T) (p : Addr) (o vec : vec2 T)
    (left tmp : Place T) (h : m p = some o) (hv : m o.normalized_vec = some vec) :
    vec2.normalized m p left tmp
      = (Scalar.sqrt (vec2.x.read vec * vec2.x.read vec
            + vec2.y.read vec * vec2.y.read vec)).bind fun mag =>
          (Scalar.div (vec2.x.read vec) mag).bind fun qx =>
            (Scalar.div (vec2.y.read vec) mag).map fun qy =>
              { d0 := qx, d1 := qy,
                magnitude_vec := left.addr, normalized_vec := left.addr } := by
  simp only [vec2.normalized, h, hv, Option.some_bind, vec2.opDivScalar_eq]
  rfl

/-- For an object whose two `_vec` pointers point to the object itself, a read
of `normalized` has the components of `v / v.magnitude`, the quotient of a copy
of the vector by its magnitude read at that time; it has a result exactly when
the magnitude and the two quotients have one. -/
theorem vec2.normalized_of_bound [Scalar T] (m : Mem T) (p : Addr) (v : vec2 T)
    (left tmp tmp1 : Place T) (h : m p = some v) (hm : v.magnitude_vec = p)
    (hn : v.normalized_vec = p) :
    (vec2.normalized m p left tmp).map vec2.components
      = (vec2.magnitude m p).bind fun mag =>
          (vec2.opDivScalar tmp1 (vec2.copyCtor v) mag).map vec2.components := by
  rw [vec2.normalized_eq m p v v left tmp h (by rw [hn]; exact h),
    vec2.magnitude_of_bound m p v h hm]
  cases Scalar.sqrt (vec2.x.read v * vec2.x.read v + vec2.y.read v * vec2.y.read v) with
  | none => rfl
  | some mag =>
    simp only [Option.some_bind, vec2.opDivScalar_components, vec2.copyCtor_eq]
    cases Scalar.div (vec2.x.read v) mag with
    | none => rfl
    | some q0 =>
      cases Scalar.div (vec2.y.read v) mag <;> rfl

/-- The vector that a read of `normalized` returns carries, in both `_vec`
pointers, the address of the parameter `left` of `operator/`. -/
theorem vec2.normalized_vec_of_result [Scalar T] (m : Mem T) (p : Addr)
    (left tmp : Place T) (n : vec2 T) (h : vec2.normalized m p left tmp = some n) :
    n.magnitude_vec = left.addr ∧ n.normalized_vec = left.addr := by
  cases hp : m p with
  | none => simp [vec2.normalized, hp] at h
  | some o =>
    cases hv : m o.normalized_vec with
    | none => simp [vec2.normalized, hp, hv] at h
    | some vec =>
      rw [vec2.normalized_eq m p o vec left tmp hp hv] at h
      cases hs : Scalar.sqrt (vec2.x.read vec * vec2.x.read vec
          + vec2.y.read vec * vec2.y.read vec) with
      | none => simp [hs] at h
      | some mag =>
        cases h0 : Scalar.div (vec2.x.read vec) mag with
        | none => simp [hs, h0] at h
        | some q0 =>
          cases h1 : Scalar.div (vec2.y.read vec) mag with
          | none => simp [hs, h0, h1] at h
          | some q1 =>
            simp only [hs, h0, h1, Option.some_bind, Option.map_some',
              Option.some.injEq] at h
            subst h
            exact ⟨rfl, rfl⟩

/-- After `vec2<T> n = v.normalized;` a read of `n.magnitude` has no value: the
`_vec` of `n` points to the destroyed parameter `left`. -/
theorem vec2.magnitude_of_normalized_undefined [Scalar T] (m m1 : Mem T) (dst src : Addr)
    (left tmp : Place T) (hl : m left.addr = none) (hd : left.addr ≠ dst)
    (h : m.initNormalized dst src left tmp = some m1) :
    vec2.magnitude m1 dst = none := by
  unfold Mem.initNormalized at h
  cases hn : vec2.normalized m src left tmp with
  | none => simp [hn] at h
  | some n =>
    simp only [hn, Option.map_some', Option.some.injEq] at h
    subst h
    have hv := (vec2.normalized_vec_of_result m src left tmp n hn).1
    simp [vec2.magnitude, Mem.store, hv, hd, hl]
/-- In `int`, the components of `v.normalized` for `v = (3, 4)` are `(3/5, 4/5) = (0, 0)`,
and `sqrt(0*0 + 0*0)` is 0; for `v = (3, 0)` they are `(1, 0)`, and `sqrt(1*1 + 0*0)`
is 1, while a read of `magnitude` of the vector initialised from `v.normalized`
has no value. -/
theorem vec2.normalized_int_examples :
    (vec2.normalized (Mem.empty.construct ⟨0, intVec 9 7 7⟩ (CInt.wrap 3) (CInt.wrap 4)) 0
        ⟨2, intVec 9 7 7⟩ ⟨3, intVec 9 7 7⟩).map vec2.components
      = some (CInt.wrap 0, CInt.wrap 0) ∧
    Scalar.sqrt (CInt.wrap 0 * CInt.wrap 0 + CInt.wrap 0 * CInt.wrap 0) = some (CInt.wrap 0) ∧
    (vec2.normalized (Mem.empty.construct ⟨0, intVec 9 7 7⟩ (CInt.wrap 3) (CInt.wrap 0)) 0
        ⟨2, intVec 9 7 7⟩ ⟨3, intVec 9 7 7⟩).map vec2.components
      = some (CInt.wrap 1, CInt.wrap 0) ∧
    Scalar.sqrt (CInt.wrap 1 * CInt.wrap 1 + CInt.wrap 0 * CInt.wrap 0) = some (CInt.wrap 1) ∧
    (((Mem.empty.construct ⟨0, intVec 9 7 7⟩ (CInt.wrap 3) (CInt.wrap 0)).initNormalized 1 0
        ⟨2, intVec 9 7 7⟩ ⟨3, intVec 9 7 7⟩).bind fun m => vec2.magnitude m 1) = none := by
  decide

/-- C11, evaluated on the code: after `vec2<int> a(0, 2), b(4, 0); vec2<int> c = a + b;`
the vector `c` is `(4, 2)`. A read of `c.normalized` returns `(0, 1)`, computed
from `a`. The quotient `c / c.magnitude` is `(2, 1)` with the value 2 that the
code returns for `c.magnitude`, and `(1, 0)` with the magnitude 4 of `(4, 2)`. -/
theorem C11_normalized_of_sum_reads_left_operand :
    (normalizedScenario.bind fun m => (m 2).map vec2.components)
      = some (CInt.wrap 4, CInt.wrap 2) ∧
    (normalizedScenario.bind fun m =>
        (vec2.normalized m 2 ⟨3, intVec 9 7 7⟩ ⟨4, intVec 9 7 7⟩).map vec2.components)
      = some (CInt.wrap 0, CInt.wrap 1) ∧
    (normalizedScenario.bind fun m => vec2.magnitude m 2) = some (CInt.wrap 2) ∧
    (normalizedScenario.bind fun m => (m 2).bind fun c =>
        (vec2.opDivScalar ⟨4, intVec 9 7 7⟩ (vec2.copyCtor c) (CInt.wrap 2)).map
          vec2.components)
      = some (CInt.wrap 2, CInt.wrap 1) ∧
    Scalar.sqrt (CInt.wrap 4 * CInt.wrap 4 + CInt.wrap 2 * CInt.wrap 2)
      = some (CInt.wrap 4) ∧
    (normalizedScenario.bind fun m => (m 2).bind fun c =>
        (vec2.opDivScalar ⟨4, intVec 9 7 7⟩ (vec2.copyCtor c) (CInt.wrap 4)).map
          vec2.components)
      = some (CInt.wrap 1, CInt.wrap 0) := by
  decide

/-! ## Single-component views -/

/-- C16: increment and decrement of a single-component view of a slot that
holds `t`. Postfix `++` returns `t` and leaves `t + 1`, prefix `++` returns and
leaves `t + 1`, postfix `--` returns `t` and leaves `t - 1`, prefix `--` returns
and leaves `t - 1`, where `1` is the `int` 1 converted to `T`. For `int` the sum
and the difference wrap around: `++` on `INT_MAX` leaves `INT_MIN`, `--` on
`INT_MIN` leaves `INT_MAX`. -/
theorem C16_increment_decrement :
    (∀ {T : Type} [Scalar T] (s : scalar_swizzle) (v : vec2 T),
      ((s.postInc v).2 = s.read v ∧ s.read (s.postInc v).1 = s.read v + Scalar.ofInt 1) ∧
      ((s.preInc v).2 = s.read v + Scalar.ofInt 1 ∧
        s.read (s.preInc v).1 = s.read v + Scalar.ofInt 1) ∧
      ((s.postDec v).2 = s.read v ∧ s.read (s.postDec v).1 = s.read v - Scalar.ofInt 1) ∧
      ((s.preDec v).2 = s.read v - Scalar.ofInt 1 ∧
        s.read (s.preDec v).1 = s.read v - Scalar.ofInt 1)) ∧
    (∀ t : CInt, t + Scalar.ofInt 1 = CInt.wrap (t.val + 1) ∧
      t - Scalar.ofInt 1 = CInt.wrap (t.val - 1)) ∧
    (vec2.x.postInc (intVec 0 2147483647 5)
        = (intVec 0 (-2147483648) 5, CInt.wrap 2147483647) ∧
      vec2.y.preDec (intVec 0 5 (-2147483648))
        = (intVec 0 5 2147483647, CInt.wrap 2147483647) ∧
      vec2.y.preInc (intVec 0 5 6) = (intVec 0 5 7, CInt.wrap 7) ∧
      vec2.x.postDec (intVec 0 5 6) = (intVec 0 4 6, CInt.wrap 5)) := by
  refine ⟨?_, ?_, by decide⟩
  · intro T _ s v
    have hset : ∀ t : T, s.read (v.set s.I t) = t := fun t => vec2.get_set_same v s.I t
    exact ⟨⟨rfl, hset _⟩, ⟨hset _, hset _⟩, ⟨rfl, hset _⟩, ⟨hset _, hset _⟩⟩
  · intro t
    exact ⟨rfl, rfl⟩

/-! ## Assignment through views, round trips -/

/-- C17: assignment through a view with a repeated index. For either order of
evaluation of the two stores, and for `w` another object or `v` itself: after
`v.xx = w` slot 1 still holds `y` and slot 0 holds `w.x` or `w.y`; after
`v.yy = w` slot 0 still holds `x` and slot 1 holds `w.x` or `w.y`. The store
evaluated last wins: for `w` another object that is `w.y` when the arguments are
evaluated left to right and `w.x` when right to left. -/
theorem C17_repeated_index_assignment {T : Type} (o : ArgOrder) (ret : Place T)
    (v w1 : vec2 T) (w : VecRef T) :
    (vec2.y.read (vec2.xx.opAssign o ret v w).1 = vec2.y.read v ∧
      (vec2.x.read (vec2.xx.opAssign o ret v w).1 = vec2.x.read (w.deref v) ∨
        vec2.x.read (vec2.xx.opAssign o ret v w).1 = vec2.y.read (w.deref v))) ∧
    (vec2.x.read (vec2.yy.opAssign o ret v w).1 = vec2.x.read v ∧
      (vec2.y.read (vec2.yy.opAssign o ret v w).1 = vec2.x.read (w.deref v) ∨
        vec2.y.read (vec2.yy.opAssign o ret v w).1 = vec2.y.read (w.deref v))) ∧
    (vec2.x.read (vec2.xx.opAssign .leftToRight ret v (.other w1)).1 = vec2.y.read w1 ∧
      vec2.x.read (vec2.xx.opAssign .rightToLeft ret v (.other w1)).1 = vec2.x.read w1 ∧
      vec2.y.read (vec2.yy.opAssign .leftToRight ret v (.other w1)).1 = vec2.y.read w1 ∧
      vec2.y.read (vec2.yy.opAssign .rightToLeft ret v (.other w1)).1 = vec2.x.read w1) := by
  refine ⟨?_, ?_, rfl, rfl, rfl, rfl⟩
  · cases o <;> cases w
    · exact ⟨rfl, Or.inr rfl⟩
    · exact ⟨rfl, Or.inr rfl⟩
    · exact ⟨rfl, Or.inl rfl⟩
    · exact ⟨rfl, Or.inr rfl⟩
  · cases o <;> cases w
    · exact ⟨rfl, Or.inr rfl⟩
    · exact ⟨rfl, Or.inl rfl⟩
    · exact ⟨rfl, Or.inl rfl⟩
    · exact ⟨rfl, Or.inl rfl⟩

/-- C19: round trips through the views `xy` and `yx`. For either order of
evaluation: after `w` is assigned through the view, a read of the same view
yields a vector with the components of `w` (for `w` another object; for `w` the
vector `v` itself, with the components that `v` has after the assignment). And
the `yx` view of the vector read from `v.yx` has the components of `v`. -/
theorem C19_view_round_trip {T : Type} (o : ArgOrder) (ret ret1 ret2 : Place T)
    (v w : vec2 T) :
    ((vec2.xy.read ret1 (vec2.xy.opAssign o ret v (.other w)).1).2.components
        = w.components ∧
      (vec2.yx.read ret1 (vec2.yx.opAssign o ret v (.other w)).1).2.components
        = w.components) ∧
    ((vec2.xy.read ret1 (vec2.xy.opAssign o ret v .owner).1).2.components
        = (vec2.xy.opAssign o ret v .owner).1.components ∧
      (vec2.yx.read ret1 (vec2.yx.opAssign o ret v .owner).1).2.components
        = (vec2.yx.opAssign o ret v .owner).1.components) ∧
    (vec2.yx.read ret2 (vec2.yx.read ret1 v).2).2.components = v.components := by
  cases o <;> exact ⟨⟨rfl, rfl⟩, ⟨rfl, rfl⟩, rfl⟩

/-! ## Division in `int`, scaling through views -/

/-- In `int`, `a / b` has a result exactly when `b` is not zero and the quotient
is not `INT_MIN / -1`. -/
theorem CInt.div_isSome (a b : CInt) :
    (Scalar.div a b).isSome = true ↔ (b.val ≠ 0 ∧ ¬(a.val = -2147483648 ∧ b.val = -1)) := by
  show (if CInt.divUndefined a b then none else some _ : Option CInt).isSome = true ↔ _
  unfold CInt.divUndefined
  by_cases h0 : b.val = 0
  · simp [h0]
  · by_cases h1 : a.val = -2147483648 ∧ b.val = -1
    · simp [h1]
    · simp [h0, h1]

/-- In `int`, a quotient that exists is the quotient of the integers, truncated
toward zero. -/
theorem CInt.div_val (a b q : CInt) (h : Scalar.div a b = some q) :
    q.val = Int.tdiv a.val b.val := by
  have hs := (CInt.div_isSome a b).mp (by rw [h]; rfl)
  have hq : q = CInt.wrap (Int.tdiv a.val b.val) := by
    have h1 : (if CInt.divUndefined a b then none
        else some (CInt.wrap (Int.tdiv a.val b.val)) : Option CInt) = some q := h
    have hnu : ¬ CInt.divUndefined a b := by
      unfold CInt.divUndefined
      rintro (h0 | h1)
      · exact hs.1 h0
      · exact hs.2 h1
    rw [if_neg hnu] at h1
    exact (Option.some.inj h1).symm
  subst hq
  show CInt.wrapInt _ = _
  have ha0 := a.lo
  have ha1 := a.hi
  have hb0 := b.lo
  have hb1 := b.hi
  have habs : (Int.tdiv a.val b.val).natAbs ≤ a.val.natAbs := by
    rw [Int.natAbs_tdiv]
    exact Nat.div_le_self _ _
  apply CInt.wrapInt_of_range
  · omega
  · by_contra hc
    have h2 : (Int.tdiv a.val b.val).natAbs = 2147483648 := by omega
    have h3 : a.val = -2147483648 := by omega
    rw [Int.natAbs_tdiv] at h2
    have h4 : a.val.natAbs = 2147483648 := by omega
    rw [h4] at h2
    have h2a : 2147483648 / b.val.natAbs = 2147483648 := h2
    have hb : b.val.natAbs = 1 := by
      rcases Nat.lt_or_ge b.val.natAbs 2 with hlt | hge
      · have : b.val.natAbs ≠ 0 := by
          intro h0
          exact hs.1 (Int.natAbs_eq_zero.mp h0)
        omega
      · have : 2147483648 / b.val.natAbs ≤ 2147483648 / 2 :=
          Nat.div_le_div_left hge (by decide)
        omega
    have hbv : b.val = 1 ∨ b.val = -1 := by omega
    rcases hbv with hb1' | hb1'
    · rw [h3, hb1'] at hc
      exact hc (by decide)
    · exact hs.2 ⟨h3, hb1'⟩

/-- C3, on the code: two inputs at which the claim fails. For `v = (3, 4)`,
`v.xy *= v.d[0]` binds `right` to slot 0, which is read again after it is
scaled: `v` becomes `(9, 36)`, while `v * 3` is `(9, 12)`. For `v = (INT_MIN, 5)`
and the nonzero `s = -1`, `v.xy /= s` has no result: the quotient `INT_MIN / -1`
does not exist in `int`. -/
theorem C3_aliased_operand_and_overflowing_quotient :
    (vec2.xy.opMulAssign (intVec 0 3 4) (.slot 0)).components
      = (CInt.wrap 9, CInt.wrap 36) ∧
    (vec2.opMulScalar (vec2.copyCtor (intVec 0 3 4)) (vec2.x.read (intVec 0 3 4))).components
      = (CInt.wrap 9, CInt.wrap 12) ∧
    vec2.x.read (intVec 0 3 4) * vec2.x.read (intVec 0 3 4) = CInt.wrap 9 ∧
    vec2.y.read (intVec 0 3 4) * vec2.x.read (intVec 0 3 4) = CInt.wrap 12 ∧
    vec2.xy.opDivAssign (intVec 0 (-2147483648) 5) (.value (CInt.wrap (-1))) = none ∧
    (CInt.wrap (-1)).val = -1 := by
  decide

/-- C3, as amended: `view *= s` and `view /= s` on any of the views `xx`, `xy`,
`yx`, `yy`, for a scalar `s` other than slot 0 of `v` itself: a scalar outside
the storage of `v`, or slot 1 of `v`. After `view *= s`, `v.x == x * s` and
`v.y == y * s`, and `v` is the vector that `v * s` returns. `view /= s` has a
result exactly when `x / s` and `y / s` have one in `T`, and then leaves them in
`v.x` and `v.y`; for `int` that is when `s` is nonzero and neither quotient is
`INT_MIN / -1`, with the quotients truncated toward zero. -/
theorem C3_view_scalar_scale :
    (∀ {T : Type} [Scalar T] (view : vec2_swizzle) (v : vec2 T) (s : T),
      vec2.x.read (view.opMulAssign v (.value s)) = vec2.x.read v * s ∧
      vec2.y.read (view.opMulAssign v (.value s)) = vec2.y.read v * s ∧
      view.opMulAssign v (.value s) = vec2.opMulScalar v s ∧
      view.opDivAssign v (.value s) =
        (Scalar.div (vec2.x.read v) s).bind fun qx =>
          (Scalar.div (vec2.y.read v) s).map fun qy => { v with d0 := qx, d1 := qy }) ∧
    (∀ {T : Type} [Scalar T] (view : vec2_swizzle) (v : vec2 T),
      vec2.x.read (view.opMulAssign v (.slot 1)) = vec2.x.read v * vec2.y.read v ∧
      vec2.y.read (view.opMulAssign v (.slot 1)) = vec2.y.read v * vec2.y.read v ∧
      view.opMulAssign v (.slot 1) = vec2.opMulScalar v (vec2.y.read v) ∧
      view.opDivAssign v (.slot 1) =
        (Scalar.div (vec2.x.read v) (vec2.y.read v)).bind fun qx =>
          (Scalar.div (vec2.y.read v) (vec2.y.read v)).map fun qy =>
            { v with d0 := qx, d1 := qy }) ∧
    (∀ (view : vec2_swizzle) (v : vec2 CInt) (s : CInt),
      view.opDivAssign v (.value s) =
        if CInt.divUndefined (vec2.x.read v) s ∨ CInt.divUndefined (vec2.y.read v) s
        then none
        else some { v with d0 := CInt.wrap (Int.tdiv (vec2.x.read v).val s.val),
                           d1 := CInt.wrap (Int.tdiv (vec2.y.read v).val s.val) }) := by
  have key : ∀ {T : Type} [Scalar T] (view : vec2_swizzle) (v : vec2 T) (s : T),
      view.opDivAssign v (.value s) =
        (Scalar.div (vec2.x.read v) s).bind fun qx =>
          (Scalar.div (vec2.y.read v) s).map fun qy => { v with d0 := qx, d1 := qy } := by
    intro T _ view v s
    show (Scalar.div v.d0 s).bind _ = (Scalar.div v.d0 s).bind _
    cases Scalar.div v.d0 s with
    | none => rfl
    | some q0 =>
      show (Scalar.div v.d1 s).map _ = (Scalar.div v.d1 s).map _
      cases Scalar.div v.d1 s <;> rfl
  refine ⟨?_, ?_, ?_⟩
  · intro T _ view v s
    exact ⟨rfl, rfl, rfl, key view v s⟩
  · intro T _ view v
    refine ⟨rfl, rfl, rfl, ?_⟩
    show (Scalar.div v.d0 v.d1).bind _ = (Scalar.div v.d0 v.d1).bind _
    cases Scalar.div v.d0 v.d1 with
    | none => rfl
    | some q0 =>
      show (Scalar.div v.d1 v.d1).map _ = (Scalar.div v.d1 v.d1).map _
      cases Scalar.div v.d1 v.d1 <;> rfl
  · intro view v s
    rw [key]
    have ex : Scalar.div (vec2.x.read v) s
        = if CInt.divUndefined (vec2.x.read v) s then none
          else some (CInt.wrap (Int.tdiv (vec2.x.read v).val s.val)) := rfl
    have ey : Scalar.div (vec2.y.read v) s
        = if CInt.divUndefined (vec2.y.read v) s then none
          else some (CInt.wrap (Int.tdiv (vec2.y.read v).val s.val)) := rfl
    rw [ex, ey]
    by_cases hx : CInt.divUndefined (vec2.x.read v) s
    · rw [if_pos hx, if_pos (Or.inl hx)]
      rfl
    · by_cases hy : CInt.divUndefined (vec2.y.read v) s
      · rw [if_neg hx, if_pos hy, if_pos (Or.inr hy)]
        rfl
      · rw [if_neg hx, if_neg hy, if_neg (fun h => h.elim hx hy)]
        rfl

/-! ## Single-component views: compound assignment, frame -/

/-- C13, on the code: for `v = (INT_MIN, 5)` and the nonzero `r = -1`, `v.x /= r`
has no result: the quotient `INT_MIN / -1` does not exist in `int`. -/
theorem C13_overflowing_quotient_has_no_result :
    vec2.x.opDivAssign (intVec 0 (-2147483648) 5) (CInt.wrap (-1)) = none ∧
    vec2.x.read (intVec 0 (-2147483648) 5) = CInt.wrap (-2147483648) ∧
    (CInt.wrap (-1)).val = -1 := by
  decide

/-- C13, as amended: the compound assignments of a single-component view. For
the view of slot `I`, `view op= r` leaves `(old slot I) op r` in slot `I`, for
`op` one of `+ - *`, where `r` is a scalar, the value of another view `s2` of
the vector (converted to `T`), or the view of the same selector of a vector `w`,
also of `v` itself: `v.x += v.x` leaves `x + x`, as `6` for `x = 3`. `view /= r`
has a result exactly when `(old slot I) / r` has one in `T`, and then leaves it
in slot `I`; for `int` that is when `r` is nonzero and the quotient is not
`INT_MIN / -1`, the quotient truncated toward zero. -/
theorem C13_single_view_compound_assignment :
    (∀ {T : Type} [Scalar T] (s s2 : scalar_swizzle) (v w : vec2 T) (r : T),
      (s.read (s.opAddAssign v r) = s.read v + r ∧
        s.read (s.opSubAssign v r) = s.read v - r ∧
        s.read (s.opMulAssign v r) = s.read v * r ∧
        (s.opDivAssign v r).map s.read = Scalar.div (s.read v) r) ∧
      (s.read (s.opAddAssign v (s2.read v)) = s.read v + s2.read v ∧
        s.read (s.opSubAssign v (s2.read v)) = s.read v - s2.read v ∧
        s.read (s.opMulAssign v (s2.read v)) = s.read v * s2.read v ∧
        (s.opDivAssign v (s2.read v)).map s.read = Scalar.div (s.read v) (s2.read v)) ∧
      (s.read (s.opAddAssignView v w) = s.read v + s.read w ∧
        s.read (s.opSubAssignView v w) = s.read v - s.read w ∧
        s.read (s.opMulAssignView v w) = s.read v * s.read w ∧
        (s.opDivAssignView v w).map s.read = Scalar.div (s.read v) (s.read w)) ∧
      (s.read (s.opAddAssignView v v) = s.read v + s.read v ∧
        s.read (s.opSubAssignView v v) = s.read v - s.read v ∧
        s.read (s.opMulAssignView v v) = s.read v * s.read v ∧
        (s.opDivAssignView v v).map s.read = Scalar.div (s.read v) (s.read v))) ∧
    (∀ (s : scalar_swizzle) (v : vec2 CInt) (r : CInt),
      (s.opDivAssign v r).map s.read
        = if r.val = 0 ∨ ((s.read v).val = -2147483648 ∧ r.val = -1) then none
          else some (CInt.wrap (Int.tdiv (s.read v).val r.val))) ∧
    vec2.x.read (vec2.x.opAddAssignView (intVec 0 3 4) (intVec 0 3 4)) = CInt.wrap 6 := by
  have key : ∀ {T : Type} [Scalar T] (s : scalar_swizzle) (v : vec2 T) (r : T),
      (s.opDivAssign v r).map s.read = Scalar.div (s.read v) r := by
    intro T _ s v r
    show ((Scalar.div (v.get s.I) r).map (v.set s.I)).map _ = Scalar.div (v.get s.I) r
    cases Scalar.div (v.get s.I) r with
    | none => rfl
    | some q => exact congrArg some (vec2.get_set_same v s.I q)
  refine ⟨?_, ?_, by decide⟩
  · intro T _ s s2 v w r
    have hset : ∀ t : T, s.read (v.set s.I t) = t := fun t => vec2.get_set_same v s.I t
    exact ⟨⟨hset _, hset _, hset _, key s v r⟩,
      ⟨hset _, hset _, hset _, key s v (s2.read v)⟩,
      ⟨hset _, hset _, hset _, key s v (s.read w)⟩,
      ⟨hset _, hset _, hset _, key s v (s.read v)⟩⟩
  · intro s v r
    rw [key]
    rfl

/-- The operations that `scalar_swizzle` declares leave the other slot, `1 - I`,
as it was: the assignment of a scalar, `+= -= *= /=` with a scalar or a view as
operand (`/=` when it has a result), and the four increments and decrements. -/
theorem scalar_swizzle.other_slot_unchanged {T : Type} [Scalar T] (s : scalar_swizzle) (v w : vec2 T)
    (r : T) :
    (s.opAssign v r).1.get (1 - s.I) = v.get (1 - s.I) ∧
    ((s.opAddAssign v r).get (1 - s.I) = v.get (1 - s.I) ∧
      (s.opSubAssign v r).get (1 - s.I) = v.get (1 - s.I) ∧
      (s.opMulAssign v r).get (1 - s.I) = v.get (1 - s.I) ∧
      (s.opDivAssign v r).map (fun v1 => v1.get (1 - s.I))
        = (s.opDivAssign v r).map (fun _ => v.get (1 - s.I))) ∧
    ((s.opAddAssignView v w).get (1 - s.I) = v.get (1 - s.I) ∧
      (s.opSubAssignView v w).get (1 - s.I) = v.get (1 - s.I) ∧
      (s.opMulAssignView v w).get (1 - s.I) = v.get (1 - s.I) ∧
      (s.opDivAssignView v w).map (fun v1 => v1.get (1 - s.I))
        = (s.opDivAssignView v w).map (fun _ => v.get (1 - s.I))) ∧
    ((s.postInc v).1.get (1 - s.I) = v.get (1 - s.I) ∧
      (s.preInc v).1.get (1 - s.I) = v.get (1 - s.I) ∧
      (s.postDec v).1.get (1 - s.I) = v.get (1 - s.I) ∧
      (s.preDec v).1.get (1 - s.I) = v.get (1 - s.I)) := by
  have hne : s.I ≠ 1 - s.I := by
    rcases s with ⟨I⟩
    fin_cases I <;> decide
  have hset : ∀ t : T, (v.set s.I t).get (1 - s.I) = v.get (1 - s.I) :=
    fun t => vec2.get_set_ne v s.I (1 - s.I) t hne
  have hdiv : ∀ q : Option T,
      (q.map (v.set s.I)).map (fun v1 => v1.get (1 - s.I))
        = (q.map (v.set s.I)).map (fun _ => v.get (1 - s.I)) := by
    intro q
    cases q with
    | none => rfl
    | some t => exact congrArg some (hset t)
  exact ⟨hset _, ⟨hset _, hset _, hset _, hdiv _⟩, ⟨hset _, hset _, hset _, hdiv _⟩,
    ⟨hset _, hset _, hset _, hset _⟩⟩


/-- C18, evaluated on the code: for `vec2<int> v(1, 2), w(10, 20);` the
assignment `v.y = w.y`, between two views of the same selector, is the copy
assignment that the compiler defines, which copies `v[0]`: `v` becomes `(10, 2)`.
Slot 0, the other slot of the view `y`, is overwritten with `w.x`, and slot 1 is
not assigned; `operator=(const T)` with the value of `w.y` gives `(1, 20)`. -/
theorem C18_view_copy_assignment_writes_slot_zero :
    (vec2.y.opAssignView (intVec 0 1 2) (intVec 1 10 20)).components
      = (CInt.wrap 10, CInt.wrap 2) ∧
    (vec2.y.opAssignView (intVec 0 1 2) (intVec 1 10 20)).get (1 - vec2.y.I)
      = CInt.wrap 10 ∧
    (intVec 0 1 2).get (1 - vec2.y.I) = CInt.wrap 1 ∧
    (vec2.y.opAssign (intVec 0 1 2) (vec2.y.read (intVec 1 10 20))).1.components
      = (CInt.wrap 1, CInt.wrap 20) := by
  decide

/-! ## Binary operators and totality -/

/-- C14, on the code: in `vec2<int>`, `(INT_MIN, 5) / -1` and
`(INT_MIN, 5) / (-1, 1)` have no result although no divisor is zero: the
quotient `INT_MIN / -1` does not exist in `int`. -/
theorem C14_overflowing_quotient_has_no_result :
    vec2.opDivScalar ⟨3, intVec 9 7 7⟩ (vec2.copyCtor (intVec 0 (-2147483648) 5))
      (CInt.wrap (-1)) = none ∧
    vec2.opDiv (vec2.copyCtor (intVec 0 (-2147483648) 5)) (intVec 1 (-1) 1) = none ∧
    (intVec 0 (-2147483648) 5).components = (CInt.wrap (-2147483648), CInt.wrap 5) ∧
    (CInt.wrap (-1)).val = -1 ∧ (CInt.wrap 1).val = 1 := by
  decide

/-- C14, as amended: the binary operators other than subtraction, and unary negation, are
component-wise. `a + b`, `a * b`, `a * s` and `-a` have the components
`(a.x + b.x, a.y + b.y)`, `(a.x * b.x, a.y * b.y)`, `(a.x * s, a.y * s)` and
`(-a.x, -a.y)`; `a / b` and `a / s` have a result exactly when both quotients
have one in `T`, with the components `(a.x / b.x, a.y / b.y)` and
`(a.x / s, a.y / s)`; for `int` that is when no divisor is zero and no quotient
is `INT_MIN / -1`. The operands
are not modified: after `vec2<T> c = e;` for an operator expression `e` on `a`
(and `b`), the objects `a` and `b` are in the state they were in, with any `op`
in the place of the operator. -/
theorem C14_binary_operators_componentwise {T : Type} [Scalar T] (a b : vec2 T) (s : T)
    (tmp ret : Place T) (m : Mem T) (pa pb pc : Addr) (op : vec2 T → Option (vec2 T))
    (ha : m pa = some a) (hb : m pb = some b) (hca : pc ≠ pa) (hcb : pc ≠ pb) :
    ((vec2.opAdd (vec2.copyCtor a) b).components
        = (vec2.x.read a + vec2.x.read b, vec2.y.read a + vec2.y.read b) ∧
      (vec2.opMul (vec2.copyCtor a) b).components
        = (vec2.x.read a * vec2.x.read b, vec2.y.read a * vec2.y.read b) ∧
      (vec2.opDiv (vec2.copyCtor a) b).map vec2.components
        = ((Scalar.div (vec2.x.read a) (vec2.x.read b)).bind fun qx =>
            (Scalar.div (vec2.y.read a) (vec2.y.read b)).map fun qy => (qx, qy)) ∧
      (vec2.opMulScalar (vec2.copyCtor a) s).components
        = (vec2.x.read a * s, vec2.y.read a * s) ∧
      (vec2.opDivScalar tmp (vec2.copyCtor a) s).map vec2.components
        = ((Scalar.div (vec2.x.read a) s).bind fun qx =>
            (Scalar.div (vec2.y.read a) s).map fun qy => (qx, qy)) ∧
      (vec2.opNeg ret a).components = (-vec2.x.read a, -vec2.y.read a)) ∧
    ((m.initByValue op pc pa).map (fun m1 => (m1 pa, m1 pb, m1 pc))
        = (op (vec2.copyCtor a)).map (fun r => (some a, some b, some r))) ∧
    (∀ (a1 b1 : vec2 CInt) (s1 : CInt) (tmp1 : Place CInt),
      (vec2.opDiv (vec2.copyCtor a1) b1).map vec2.components
        = (if CInt.divUndefined (vec2.x.read a1) (vec2.x.read b1)
              ∨ CInt.divUndefined (vec2.y.read a1) (vec2.y.read b1) then none
          else some (CInt.wrap (Int.tdiv (vec2.x.read a1).val (vec2.x.read b1).val),
            CInt.wrap (Int.tdiv (vec2.y.read a1).val (vec2.y.read b1).val))) ∧
      (vec2.opDivScalar tmp1 (vec2.copyCtor a1) s1).map vec2.components
        = (if CInt.divUndefined (vec2.x.read a1) s1
              ∨ CInt.divUndefined (vec2.y.read a1) s1 then none
          else some (CInt.wrap (Int.tdiv (vec2.x.read a1).val s1.val),
            CInt.wrap (Int.tdiv (vec2.y.read a1).val s1.val)))) := by
  have hdiv : ∀ {U : Type} [Scalar U] (a1 b1 : vec2 U),
      (vec2.opDiv (vec2.copyCtor a1) b1).map vec2.components
        = ((Scalar.div (vec2.x.read a1) (vec2.x.read b1)).bind fun qx =>
            (Scalar.div (vec2.y.read a1) (vec2.y.read b1)).map fun qy => (qx, qy)) := by
    intro U _ a1 b1
    unfold vec2.opDiv
    rw [vec2.opDivAssign_eq]
    simp only [vec2.copyCtor_eq]
    cases Scalar.div (vec2.x.read a1) (vec2.x.read b1) with
    | none => rfl
    | some q0 => cases Scalar.div (vec2.y.read a1) (vec2.y.read b1) <;> rfl
  refine ⟨⟨rfl, rfl, hdiv a b, rfl, vec2.opDivScalar_components tmp _ s, rfl⟩, ?_, ?_⟩
  · simp only [Mem.initByValue, ha, Option.some_bind]
    cases op (vec2.copyCtor a) with
    | none => rfl
    | some r =>
      simp only [Option.map_some', Mem.store, Option.some.injEq, Prod.mk.injEq]
      refine ⟨?_, ?_, ?_⟩
      · rw [if_neg (Ne.symm hca), ha]
      · rw [if_neg (Ne.symm hcb), hb]
      · simp
  · intro a1 b1 s1 tmp1
    have hq : ∀ (x y p q : CInt),
        ((Scalar.div x p).bind fun qx => (Scalar.div y q).map fun qy => (qx, qy))
          = if CInt.divUndefined x p ∨ CInt.divUndefined y q then none
            else some (CInt.wrap (Int.tdiv x.val p.val), CInt.wrap (Int.tdiv y.val q.val)) := by
      intro x y p q
      have ex : Scalar.div x p
          = if CInt.divUndefined x p then none
            else some (CInt.wrap (Int.tdiv x.val p.val)) := rfl
      have ey : Scalar.div y q
          = if CInt.divUndefined y q then none
            else some (CInt.wrap (Int.tdiv y.val q.val)) := rfl
      rw [ex, ey]
      by_cases hx : CInt.divUndefined x p
      · rw [if_pos hx, if_pos (Or.inl hx)]
        rfl
      · by_cases hy : CInt.divUndefined y q
        · rw [if_neg hx, if_pos hy, if_pos (Or.inr hy)]
          rfl
        · rw [if_neg hx, if_neg hy, if_neg (fun h => h.elim hx hy)]
          rfl
    exact ⟨by rw [hdiv]; exact hq _ _ _ _,
      by rw [vec2.opDivScalar_components]; exact hq _ _ _ _⟩

/-- C14 at `a = (6, 8)`, `b = (2, 4)`, `s = 2` of `vec2<int>` and `vec2<int> c = a / b;`. -/
theorem C14_binary_operators_componentwise_witness :
    ((Mem.empty.store 0 (intVec 0 6 8)).store 1 (intVec 1 2 4)) 0 = some (intVec 0 6 8) ∧
    ((Mem.empty.store 0 (intVec 0 6 8)).store 1 (intVec 1 2 4)) 1 = some (intVec 1 2 4) ∧
    (2 : Addr) ≠ 0 ∧ (2 : Addr) ≠ 1 ∧
    (vec2.opAdd (vec2.copyCtor (intVec 0 6 8)) (intVec 1 2 4)).components
      = (vec2.x.read (intVec 0 6 8) + vec2.x.read (intVec 1 2 4),
          vec2.y.read (intVec 0 6 8) + vec2.y.read (intVec 1 2 4)) ∧
    ((((Mem.empty.store 0 (intVec 0 6 8)).store 1 (intVec 1 2 4)).initByValue
          (fun left => vec2.opDiv left (intVec 1 2 4)) 2 0).map
        fun m1 => (m1 0, m1 1, m1 2))
      = (vec2.opDiv (vec2.copyCtor (intVec 0 6 8)) (intVec 1 2 4)).map
          (fun r => (some (intVec 0 6 8), some (intVec 1 2 4), some r)) ∧
    (vec2.opDiv (vec2.copyCtor (intVec 0 6 8)) (intVec 1 2 4)).map vec2.components
      = some (CInt.wrap 3, CInt.wrap 2) :=
  have h := C14_binary_operators_componentwise (intVec 0 6 8) (intVec 1 2 4) (CInt.wrap 2)
    ⟨3, intVec 9 7 7⟩ ⟨4, intVec 9 7 7⟩
    ((Mem.empty.store 0 (intVec 0 6 8)).store 1 (intVec 1 2 4)) 0 1 2
    (fun left => vec2.opDiv left (intVec 1 2 4)) (by decide) (by decide) (by decide)
    (by decide)
  ⟨by decide, by decide, by decide, by decide, h.1.1, h.2.1, by decide⟩

/-- C12, evaluated on the code: after `vec2<int> v(3, 0); vec2<int> n = v.normalized;`
the vector `n` is `(1, 0)`, whose `sqrt(1*1 + 0*0)` is 1. Both `_vec` pointers of
`n` hold the address (here 2) of the parameter `left` of `operator/`, from which
`n` was copied and where no object is live any more, so a read of `n.magnitude`
has no value. -/
theorem C12_magnitude_of_normalized_reads_dead_parameter :
    normalizedCopyScenario.isSome = true ∧
    (normalizedCopyScenario.bind fun m => m 1)
      = some ⟨CInt.wrap 1, CInt.wrap 0, 2, 2⟩ ∧
    (normalizedCopyScenario.bind fun m => m 2) = none ∧
    (normalizedCopyScenario.bind fun m => vec2.magnitude m 1) = none ∧
    Scalar.sqrt (CInt.wrap 1 * CInt.wrap 1 + CInt.wrap 0 * CInt.wrap 0)
      = some (CInt.wrap 1) := by
  decide

end cm
